import Mathlib

/-!
# Verification of the Adtree tabular reconciliation core

Shallow embedding of the ingestion / diff / apply logic of the Adtree
operations console (`leaderboard.py`, `leaderboard_page.py`, `db.py`,
`content_submission.py`, `content_qc.py`, `creator.py`), together with
proofs and refutations of the specification's claims about it.

Conventions of the embedding:
* Python strings are `List Char` internally, `String` at the boundary.
* A pandas scalar cell is `PdVal` (`na` models NaN/None; `str()` of NaN is
  the literal `"nan"`, as pandas' `astype(str)` produces).
* SQL values are `DbVal` (`null` models SQL NULL).
* `psycopg2`'s `with conn:` block is modelled by running the statements
  sequentially and restoring the entry state when any statement fails
  (commit on normal exit, rollback on exception).
-/

namespace Adtree

/-! ## Python string primitives -/

/-- The whitespace characters stripped by Python `str.strip()` and matched by
the regex class `\s` (ASCII range, which is all the sources ever meet). -/
def isPySpace (c : Char) : Bool :=
  c = ' ' ∨ c = '\t' ∨ c = '\n' ∨ c = '\r' ∨ c = '\x0b' ∨ c = '\x0c'

/-- Python `str.strip()`: drop leading and trailing whitespace. -/
def pyStrip (l : List Char) : List Char :=
  ((l.dropWhile isPySpace).reverse.dropWhile isPySpace).reverse

/-- Lower-case a single ASCII character, as Python `str.lower()` does. -/
def pyLowerChar (c : Char) : Char :=
  if 'A' ≤ c ∧ c ≤ 'Z' then Char.ofNat (c.toNat + 32) else c

/-- Python `str.lower()`. -/
def pyLower (l : List Char) : List Char := l.map pyLowerChar

/-- `str.strip()` on `String`s. -/
def pyStripS (s : String) : String := ⟨pyStrip s.data⟩

/-- `str.lower()` on `String`s. -/
def pyLowerS (s : String) : String := ⟨pyLower s.data⟩

/-! ## Pandas scalars -/

/-- A raw pandas cell: missing (`NaN`/`None`), a string, or an integer. -/
inductive PdVal where
  | na
  | s (v : String)
  | i (n : Int)
  deriving DecidableEq, Repr

/-- `pd.isna`. -/
def pdIsna : PdVal → Bool
  | .na => true
  | _ => false

/-- Python `str(v)` on a pandas cell; `str()`/`astype(str)` of a missing
value is the literal string `"nan"`. -/
def pdStr : PdVal → List Char
  | .na => "nan".data
  | .s v => v.data
  | .i n => (toString n).data

/-! ## Decimal parsing (`int(...)` on a filtered string) -/

/-- Value of a digit-only, most-significant-first character list. -/
def digitsVal (l : List Char) : Nat :=
  l.foldl (fun a c => 10 * a + (c.toNat - 48)) 0

/-- Python `int(s)` restricted to the strings the cleaners can produce
(only digits and `'-'`): an optional single leading minus followed by at
least one digit; anything else raises, i.e. yields `none`. -/
def parsePyInt (l : List Char) : Option Int :=
  match l with
  | [] => none
  | c :: rest =>
    if c = '-' then
      if rest ≠ [] ∧ rest.all Char.isDigit then some (-(digitsVal rest : Int)) else none
    else
      if (c :: rest).all Char.isDigit then some ((digitsVal (c :: rest) : Int)) else none

/-! ## Field Normalizer (`leaderboard.py` `_clean_int` / `_clean_idr`) -/

/-- Residue of `_clean_int`'s two regex substitutions:
`re.sub(r"[,\s]", "", s)` then `re.sub(r"[^0-9\-]", "", s)`. -/
def intResidue (l : List Char) : List Char :=
  (l.filter (fun c => ¬ (c = ',' ∨ isPySpace c))).filter (fun c => c.isDigit ∨ c = '-')

/-- `_clean_int` (`leaderboard.py` lines 36-49). -/
def clean_int (v : PdVal) : Option Int :=
  if pdIsna v then none
  else
    let s := pyStrip (pdStr v)
    if s = [] ∨ pyLower s = "nan".data ∨ pyLower s = "none".data then none
    else
      let r := intResidue s
      if r = [] ∨ r = ['-'] then none else parsePyInt r

/-- Remove every non-overlapping occurrence of the two-character pattern
`[u, v]`, scanning left to right — Python `s.replace("Rp", "")` for a
two-character pattern. -/
def stripPair (u v : Char) : List Char → List Char
  | [] => []
  | [c] => [c]
  | a :: b :: rest =>
    if a = u ∧ b = v then stripPair u v rest
    else a :: stripPair u v (b :: rest)

/-- Residue of `_clean_idr`'s chain of replacements:
drop `"Rp"` then `"rp"`, drop `'.'`, `' '`, `','`, then keep digits/minus. -/
def idrResidue (l : List Char) : List Char :=
  ((((stripPair 'r' 'p' (stripPair 'R' 'p' l)).filter (fun c => c ≠ '.')).filter
      (fun c => c ≠ ' ')).filter (fun c => c ≠ ',')).filter
    (fun c => c.isDigit ∨ c = '-')

/-- `_clean_idr` (`leaderboard.py` lines 51-76). -/
def clean_idr (v : PdVal) : Option Int :=
  if pdIsna v then none
  else
    let s := pyStrip (pdStr v)
    if s = [] ∨ pyLower s = "nan".data ∨ pyLower s = "none".data then none
    else
      let r := idrResidue s
      if r = [] ∨ r = ['-'] then none else parsePyInt r

/-! ## Currency formatting (`leaderboard_page.py` `_format_idr`) -/

/-- The decimal digit character of `d` (`chr(48 + d)`). -/
def digitChar (d : Nat) : Char := Char.ofNat (48 + d)

/-- The ten decimal digit characters. -/
def decDigits : List Char := ['0', '1', '2', '3', '4', '5', '6', '7', '8', '9']

/-- Least-significant-first decimal digits of `n`, fuelled so that the
definition is structural (and hence kernel-computable). -/
def revDigitsAux : Nat → Nat → List Char
  | 0, _ => []
  | fuel + 1, n =>
    if n < 10 then [digitChar n] else digitChar (n % 10) :: revDigitsAux fuel (n / 10)

/-- Python `str(n)` for `n : Nat`: most-significant-first decimal digits. -/
def natRepr (n : Nat) : List Char := (revDigitsAux (n + 1) n).reverse

/-- Insert `'.'` after every third character; applied to the reversed digit
string this is the thousands grouping of `f"{n:,}".replace(",", ".")`. -/
def group3 : List Char → List Char
  | a :: b :: c :: d :: rest => a :: b :: c :: '.' :: group3 (d :: rest)
  | l => l

/-- `_format_idr` (`leaderboard_page.py` lines 168-174) on a whole-number
minor-unit amount: `f"Rp{int(n):,}".replace(",", ".")`. -/
def format_idr (n : Nat) : String :=
  ⟨'R' :: 'p' :: (group3 (natRepr n).reverse).reverse⟩

/-! ## SQL values and the content-submissions store (`db.py`) -/

/-- A SQL cell value: NULL, an integer, or text. -/
inductive DbVal where
  | null
  | int (n : Int)
  | str (s : String)
  deriving DecidableEq, Repr

/-- A `public.content_submissions` row, restricted to the columns the apply
path writes (`id`, `status_id`, `reason`). -/
structure CSRow where
  id : Int
  status_id : Option Int
  reason : Option String
  deriving DecidableEq, Repr

/-- The content-submissions store: its rows plus the ids present in
`public.status_map`, which `status_id` must reference (db.py line 31:
"must match status_map table"). -/
structure CSStore where
  rows : List CSRow
  validStatusIds : List Int
  deriving DecidableEq, Repr

/-- A store-level error raised by one UPDATE statement. -/
inductive DbErr where
  /-- the parameter dict lacks the `status_id` key the SQL names -/
  | missingParam
  /-- the new `status_id` matches no `status_map` row -/
  | fkViolation
  deriving DecidableEq, Repr

/-- One per-row update payload sent to `bulk_update_content_submissions`:
a dict with key `id`, optionally the key `status_id`, and key `reason`
(whose value may be `None`). `status_id = none` models the key being
absent from the dict. -/
structure UpdatePayload where
  id : Int
  status_id : Option Int
  reason : Option String
  deriving DecidableEq, Repr

/-- One `UPDATE public.content_submissions SET status_id = ..., reason = ...
WHERE id = ...` statement: fails when the dict has no `status_id` key or
when the new status id violates the foreign key; otherwise rewrites every
row whose id matches. -/
def execUpdateSubmission (st : CSStore) (p : UpdatePayload) : Except DbErr CSStore :=
  match p.status_id with
  | none => .error .missingParam
  | some sid =>
    if sid ∈ st.validStatusIds then
      .ok { st with
        rows := st.rows.map fun r =>
          if r.id = p.id then { r with status_id := some sid, reason := p.reason } else r }
    else .error .fkViolation

/-- Result of a bulk update: the store afterwards, the raised error if any,
and whether a store connection was opened at all. -/
structure BulkResult where
  store : CSStore
  err : Option DbErr
  connected : Bool
  deriving DecidableEq, Repr

/-- Run the statements of one `with conn:` block in order; on the first
error the block rolls back to the entry store `st0` and re-raises. -/
def runStatements (st0 : CSStore) : CSStore → List UpdatePayload → CSStore × Option DbErr
  | st, [] => (st, none)
  | st, p :: rest =>
    match execUpdateSubmission st p with
    | .ok st' => runStatements st0 st' rest
    | .error e => (st0, some e)

/-- `bulk_update_content_submissions` (`db.py` lines 284-310, the second
definition, which shadows the exception-wrapping one at lines 21-68):
returns immediately on an empty list, otherwise executes every per-row
UPDATE inside a single `with conn:` transaction — commit at block exit,
rollback of the whole batch on any error, the error re-raised unwrapped. -/
def bulk_update_content_submissions (st : CSStore) (updates : List UpdatePayload) :
    BulkResult :=
  if updates = [] then ⟨st, none, false⟩
  else
    let r := runStatements st st updates
    ⟨r.1, r.2, true⟩

/-! ## Creator registry store (`db.py`) -/

/-- A `public.creator_registry` row: its id and its column values. -/
structure CRRow where
  id : Int
  fields : List (String × DbVal)
  deriving DecidableEq, Repr

/-- The creator-registry store, with the `public.agency_map` lookup table. -/
structure CRStore where
  rows : List CRRow
  agencyMap : List (String × Int)
  deriving DecidableEq, Repr

/-- `get_agency_id_by_name` (`db.py` lines 101-112): `SELECT id FROM
public.agency_map WHERE agency_name = %s LIMIT 1`, `None` when absent. -/
def get_agency_id_by_name (st : CRStore) (name : String) : Option Int :=
  (st.agencyMap.find? (fun p => p.1 = name)).map (fun p => p.2)

/-- Assign column `k` of a row's field list to `v` (the SET clause of the
UPDATE for one column). -/
def setField (fs : List (String × DbVal)) (k : String) (v : DbVal) :
    List (String × DbVal) :=
  fs.map fun p => if p.1 = k then (k, v) else p

/-- `update_creator_registry_row` (`db.py` lines 251-282): no-op without
opening a connection when `updated_fields` is empty; otherwise replaces an
`agency_name` entry by the looked-up `agency_id` (NULL when the name has no
id), then executes one UPDATE on the matching row. Returns the store and
whether a connection was opened. -/
def update_creator_registry_row (st : CRStore) (rowId : Int)
    (updatedFields : List (String × DbVal)) : CRStore × Bool :=
  if updatedFields = [] then (st, false)
  else
    let fields :=
      match updatedFields.find? (fun p => p.1 = "agency_name") with
      | some (_, v) =>
        let agencyId :=
          match v with
          | .str s => get_agency_id_by_name st s
          | _ => none
        (updatedFields.filter (fun (p : String × DbVal) => p.1 ≠ "agency_name")) ++
          [("agency_id", (agencyId.map DbVal.int).getD .null)]
      | none => updatedFields
    ({ st with
        rows := st.rows.map fun r =>
          if r.id = rowId then
            { r with fields := fields.foldl (fun acc kv => setField acc kv.1 kv.2) r.fields }
          else r },
      true)

/-! ## Diff engine of the submissions editor (`content_submission.py`) -/

/-- One row of the submissions editor paired with its baseline: statuses
and reasons as the editor sees them. The baseline status may be SQL NULL
(pandas NaN); the baseline reason has already been `fillna("")`-filled
(line 222), so both reasons are plain strings. -/
structure SubRow where
  id : Int
  origStatus : Option String
  origReason : String
  editStatus : String
  editReason : String
  deriving DecidableEq, Repr

/-- Pandas scalar `!=` between the baseline status and the edited one:
NaN compares unequal to everything, including NaN. -/
def subStatusChanged (r : SubRow) : Bool :=
  match r.origStatus with
  | none => true
  | some s => s ≠ r.editStatus

/-- `status_df[status_df["status_name"] == edited_status]["id"].values[0]`:
the id of the first status row with that name; the subscript raises
(IndexError) when the name is absent. -/
def lookupStatusFirst (lookup : List (String × Int)) (name : String) : Option Int :=
  (lookup.find? (fun p => p.1 = name)).map (fun p => p.2)

/-- The loop body of `content_submission.py` lines 258-272 for one row:
`.ok none` when nothing changed, `.error ()` when a change is detected but
the edited status has no id (the `values[0]` IndexError), otherwise the
payload, which always carries both `status_id` and `reason` (the reason
blanked to NULL when whitespace-only). -/
def processSubRow (lookup : List (String × Int)) (r : SubRow) :
    Except Unit (Option UpdatePayload) :=
  if subStatusChanged r ∨ r.origReason ≠ r.editReason then
    match lookupStatusFirst lookup r.editStatus with
    | none => .error ()
    | some sid =>
      .ok (some ⟨r.id, some sid,
        if pyStripS r.editReason ≠ "" then some r.editReason else none⟩)
  else .ok none

/-- The whole change-detection loop of the submissions editor: the changed
rows' payloads in row order, or the IndexError if any changed row's status
is unmapped. -/
def submissionChanges (lookup : List (String × Int)) :
    List SubRow → Except Unit (List UpdatePayload)
  | [] => .ok []
  | r :: rest => do
    let p ← processSubRow lookup r
    let ps ← submissionChanges lookup rest
    pure (match p with | none => ps | some x => x :: ps)

/-! ## Diff engine of the QC page (`content_qc.py`) -/

/-- One QC row paired across baseline and working snapshot. The baseline
keeps true NULLs (export does not `fillna`); the working reason is `""` or
text but may in principle be NaN, which the code guards for. -/
structure QcRow where
  id : Int
  baseStatus : Option String
  baseReason : Option String
  curStatus : Option String
  curReason : Option String
  deriving DecidableEq, Repr

/-- `"" if pd.isna(x) else str(x).strip()` (`content_qc.py` lines 229, 232). -/
def cleanReason : Option String → String
  | none => ""
  | some s => pyStripS s

/-- Python `!=` between the fetched statuses (`base_status != cur_status`):
the frames keep SQL NULL as Python `None`, and `None != None` is false,
so this is structural inequality on the optional values. -/
def pdNe (a b : Option String) : Bool := a ≠ b

/-- `cur_status not in status_name_to_id`, where the dict maps a duplicated
name to its last id. -/
def lookupStatusDict (lookup : List (String × Int)) : Option String → Option Int
  | none => none
  | some name => (lookup.reverse.find? (fun p => p.1 = name)).map (fun p => p.2)

/-- The loop body of `content_qc.py` lines 220-264 for one row: `none` when
nothing changed, `none` (a silent skip) when the status changed but its
name has no id in the status lookup, otherwise the payload — `status_id`
present only when the status changed, `reason` always present (NULL when
the cleaned reason is empty). -/
def processQcRow (lookup : List (String × Int)) (r : QcRow) : Option UpdatePayload :=
  let statusChanged := pdNe r.baseStatus r.curStatus
  let reasonChanged := cleanReason r.baseReason ≠ cleanReason r.curReason
  if ¬ statusChanged ∧ ¬ reasonChanged then none
  else if statusChanged ∧ (lookupStatusDict lookup r.curStatus) = none then none
  else
    some ⟨r.id,
      if statusChanged then lookupStatusDict lookup r.curStatus else none,
      if cleanReason r.curReason ≠ "" then some (cleanReason r.curReason) else none⟩

/-- The whole QC change-detection loop, in working-copy row order. -/
def qcChanges (lookup : List (String × Int)) (rows : List QcRow) : List UpdatePayload :=
  rows.filterMap (processQcRow lookup)

/-! ## Creator edit form change detection (`creator.py` lines 417-434) -/

/-- `row[key]` on the fetched registry row. -/
def rowGet (row : List (String × DbVal)) (k : String) : DbVal :=
  ((row.find? (fun p => p.1 = k)).map (fun p => p.2)).getD .null

/-- The sequence of `check_change(key, new_val)` calls: keep exactly the
candidate fields whose new value differs from the row's current value. -/
def buildUpdatedFields (row : List (String × DbVal))
    (candidates : List (String × DbVal)) : List (String × DbVal) :=
  candidates.filter fun (kv : String × DbVal) => rowGet row kv.1 ≠ kv.2


/-! ## Ingestion pipeline (`leaderboard.py`) -/

/-- The three import modes (`IMPORT_MODES`). -/
inductive ModeKey where
  | main
  | industry
  | dining
  deriving DecidableEq, Repr

/-- `IMPORT_MODES[mode]["required_cols"]`. -/
def requiredCols : ModeKey → List String
  | .main =>
    ["No", "Creator Name", "Username", "Post", "Redemption GMV", "Status", "Hadiah", "Level"]
  | .industry =>
    ["Username", "GMV", "Order Accommodation", "Order Dining", "Order things to Do",
      "Syarat penjualan", "Kurang penjualan", "Status", "Bonus"]
  | .dining =>
    ["Creator Name", "Penjualan Dining", "Syarat penjualan", "Kurang penjualan",
      "Status", "Bonus"]

/-- An uploaded table: the discovered column names and the rows, each a list
of cells aligned with the columns. -/
structure RawTable where
  cols : List String
  rows : List (List PdVal)
  deriving Repr

/-- The validation of `render` (`leaderboard.py` line 247): the required
column names with no case-insensitive match among the trimmed-and-lowered
uploaded column names. -/
def missingColumns (required cols : List String) : List String :=
  required.filter fun c => ¬ cols.any (fun x => pyLowerS (pyStripS x) = pyLowerS c)

/-- `_pick_col` (`leaderboard.py` lines 81-86): the dict comprehension keeps
the last column per normalized name, so resolution returns the last match;
`none` models the raised ValueError. -/
def pick_col (cols : List String) (name : String) : Option String :=
  cols.reverse.find? fun c => pyLowerS (pyStripS c) = pyLowerS (pyStripS name)

/-- Position of the first column labelled `c`. -/
def colIndex (cols : List String) (c : String) : Option Nat :=
  match cols with
  | [] => none
  | x :: rest => if x = c then some 0 else (colIndex rest c).map (· + 1)

/-- `_clean_int` as a cell of the normalized frame (`None` becomes NULL). -/
def cellInt (v : PdVal) : DbVal := ((clean_int v).map DbVal.int).getD .null

/-- `_clean_idr` as a cell of the normalized frame. -/
def cellIdr (v : PdVal) : DbVal := ((clean_idr v).map DbVal.int).getD .null

/-- A name/username cell: `.astype(str).str.strip()` followed by
`.replace({".": None, "": None})`. -/
def cellName (v : PdVal) : DbVal :=
  let s := pyStripS ⟨pdStr v⟩
  if s = "." ∨ s = "" then .null else .str s

/-- A status cell: `.astype(str).str.strip()` with no replacement. -/
def cellStatus (v : PdVal) : DbVal := .str (pyStripS ⟨pdStr v⟩)

/-- The `_normalize_*` column plan per mode: source logical column name and
the cleaner applied to it, in output-column order. -/
def modeSpec : ModeKey → List (String × (PdVal → DbVal))
  | .main =>
    [("No", cellInt), ("Creator Name", cellName), ("Username", cellName),
      ("Post", cellInt), ("Redemption GMV", cellIdr), ("Status", cellStatus),
      ("Hadiah", cellIdr), ("Level", cellInt)]
  | .industry =>
    [("Username", cellName), ("GMV", cellIdr), ("Order Accommodation", cellInt),
      ("Order Dining", cellInt), ("Order things to Do", cellInt),
      ("Syarat penjualan", cellIdr), ("Kurang penjualan", cellIdr),
      ("Status", cellStatus), ("Bonus", cellIdr)]
  | .dining =>
    [("Creator Name", cellName), ("Penjualan Dining", cellIdr),
      ("Syarat penjualan", cellIdr), ("Kurang penjualan", cellIdr),
      ("Status", cellStatus), ("Bonus", cellIdr)]

/-- `_normalize_main_leaderboard` / `_normalize_all_industry_bonus` /
`_normalize_dining_bonus`: resolve every source column once for the whole
table, then clean each row cell-wise; `none` models the ValueError a
missing column raises. -/
def normalizeTable (spec : List (String × (PdVal → DbVal))) (t : RawTable) :
    Option (List (List DbVal)) :=
  (spec.mapM fun sc =>
      (pick_col t.cols sc.1).bind fun actual =>
        (colIndex t.cols actual).map fun i => (sc.2, i)).map
    fun resolved => t.rows.map fun row => resolved.map fun fi => fi.1 (row.getD fi.2 .na)

/-- The destination store of the import page: whether the `leaderboard`
schema exists, each mode's destination table (absent or its rows), and the
driver-level oracle saying whether the store rejects a given bulk insert. -/
structure LBStore where
  schemaExists : Bool
  tables : ModeKey → Option (List (List DbVal))
  rejects : List (List DbVal) → Bool

/-- Point update of one mode's table. -/
def setTable (st : LBStore) (m : ModeKey) (v : Option (List (List DbVal))) : LBStore :=
  { st with tables := fun k => if k = m then v else st.tables k }

/-- `_ensure_table`: `CREATE TABLE IF NOT EXISTS`. -/
def ensureTable (st : LBStore) (m : ModeKey) : LBStore :=
  match st.tables m with
  | none => setTable st m (some [])
  | some _ => st

/-- The body of the `with conn:` block of `render` (`leaderboard.py` lines
278-284): ensure schema, ensure table, optional TRUNCATE, bulk insert;
`none` when the store rejects the insert, making the block roll back. -/
def importBody (st : LBStore) (m : ModeKey) (clear : Bool) (rows : List (List DbVal)) :
    Option LBStore :=
  let st1 := { st with schemaExists := true }
  let st2 := ensureTable st1 m
  let st3 := if clear then setTable st2 m (some []) else st2
  if st.rejects rows then none
  else some (setTable st3 m (some ((st3.tables m).getD [] ++ rows)))

/-- Outcome of one import action. -/
inductive ImportOutcome where
  | rejected (missing : List String)
  | normFailed
  | imported (n : Nat)
  | importFailed
  deriving DecidableEq, Repr

/-- The import flow of `render` (`leaderboard.py` lines 244-290): validate
required columns (rejecting the upload before any normalization or store
work), normalize, then run the transactional import; a failing transaction
leaves the store as it was (`with conn:` rollback). -/
def runImport (st : LBStore) (m : ModeKey) (t : RawTable) (clear : Bool) :
    LBStore × ImportOutcome :=
  if missingColumns (requiredCols m) t.cols ≠ [] then
    (st, .rejected (missingColumns (requiredCols m) t.cols))
  else
    match normalizeTable (modeSpec m) t with
    | none => (st, .normFailed)
    | some rows =>
      match importBody st m clear rows with
      | none => (st, .importFailed)
      | some st' => (st', .imported rows.length)


/-! ## Digit and grouping lemmas for the currency round-trip -/

/-- Value of a least-significant-first digit list. -/
def valRev : List Char → Nat
  | [] => 0
  | c :: cs => (c.toNat - 48) + 10 * valRev cs

theorem digitChar_mem_decDigits {d : Nat} (h : d < 10) : digitChar d ∈ decDigits := by
  interval_cases d <;> decide

theorem digitChar_toNat {d : Nat} (h : d < 10) : (digitChar d).toNat = 48 + d := by
  interval_cases d <;> decide

theorem decDigit_facts {c : Char} (h : c ∈ decDigits) :
    c.isDigit = true ∧ isPySpace c = false ∧ c ≠ '.' ∧ c ≠ ',' ∧ c ≠ ' ' ∧ c ≠ '-' ∧
      c ≠ 'R' ∧ c ≠ 'r' := by
  fin_cases h <;> decide

theorem mem_revDigitsAux : ∀ (fuel n : Nat), ∀ c ∈ revDigitsAux fuel n, c ∈ decDigits := by
  intro fuel
  induction fuel with
  | zero => intro n c hc; simp [revDigitsAux] at hc
  | succ f ih =>
    intro n c hc
    simp only [revDigitsAux] at hc
    split at hc
    · rename_i hn
      simp only [List.mem_singleton] at hc
      exact hc ▸ digitChar_mem_decDigits hn
    · rcases List.mem_cons.mp hc with rfl | h
      · exact digitChar_mem_decDigits (Nat.mod_lt _ (by omega))
      · exact ih _ c h

theorem valRev_revDigitsAux : ∀ (fuel n : Nat), n < fuel → valRev (revDigitsAux fuel n) = n := by
  intro fuel
  induction fuel with
  | zero => omega
  | succ f ih =>
    intro n hn
    simp only [revDigitsAux]
    split
    · rename_i h10
      simp [valRev, digitChar_toNat h10]
    · rename_i h10
      have hdiv : n / 10 < n := Nat.div_lt_self (by omega) (by omega)
      rw [valRev, digitChar_toNat (Nat.mod_lt _ (by omega)), ih _ (by omega)]
      have := Nat.mod_add_div n 10
      omega

theorem digitsVal_append_singleton (l : List Char) (c : Char) :
    digitsVal (l ++ [c]) = 10 * digitsVal l + (c.toNat - 48) := by
  simp [digitsVal, List.foldl_append]

theorem digitsVal_reverse (l : List Char) : digitsVal l.reverse = valRev l := by
  induction l with
  | nil => rfl
  | cons c cs ih =>
    rw [List.reverse_cons, digitsVal_append_singleton, ih, valRev]
    omega

theorem digitsVal_natRepr (n : Nat) : digitsVal (natRepr n) = n := by
  rw [natRepr, digitsVal_reverse, valRev_revDigitsAux _ _ (Nat.lt_succ_self n)]

theorem natRepr_ne_nil (n : Nat) : natRepr n ≠ [] := by
  rw [natRepr, revDigitsAux]
  split <;> simp

theorem mem_natRepr {n : Nat} {c : Char} (h : c ∈ natRepr n) : c ∈ decDigits := by
  rw [natRepr, List.mem_reverse] at h
  exact mem_revDigitsAux _ _ c h

theorem group3_mem : ∀ (k : Nat) (l : List Char), l.length ≤ k →
    ∀ c ∈ group3 l, c ∈ l ∨ c = '.' := by
  intro k
  induction k with
  | zero =>
    intro l hl c hc
    have : l = [] := List.length_eq_zero.mp (Nat.le_zero.mp hl)
    subst this
    simp [group3] at hc
  | succ k ih =>
    intro l hl c hc
    match l with
    | [] => simp [group3] at hc
    | [a] => simp [group3] at hc; simp [hc]
    | [a, b] => simp only [group3] at hc; exact Or.inl hc
    | [a, b, c0] => simp only [group3] at hc; exact Or.inl hc
    | a :: b :: c0 :: d :: rest =>
      simp only [group3, List.mem_cons] at hc
      rcases hc with rfl | rfl | rfl | rfl | h
      · exact Or.inl (by simp)
      · exact Or.inl (by simp)
      · exact Or.inl (by simp)
      · exact Or.inr rfl
      · have hlen : (d :: rest).length ≤ k := by
          simp only [List.length_cons] at hl ⊢; omega
        rcases ih (d :: rest) hlen c h with hm | hm
        · exact Or.inl (by simp [List.mem_cons] at hm ⊢; tauto)
        · exact Or.inr hm

theorem group3_filter_dot : ∀ (k : Nat) (l : List Char), l.length ≤ k →
    (∀ c ∈ l, c ≠ '.') → (group3 l).filter (fun c => c ≠ '.') = l := by
  intro k
  induction k with
  | zero =>
    intro l hl _
    have : l = [] := List.length_eq_zero.mp (Nat.le_zero.mp hl)
    subst this; rfl
  | succ k ih =>
    intro l hl hdot
    match l with
    | [] => rfl
    | [a] => simp [group3, List.filter, hdot a (by simp)]
    | [a, b] =>
      simp [group3, List.filter, hdot a (by simp), hdot b (by simp)]
    | [a, b, c0] =>
      simp [group3, List.filter, hdot a (by simp), hdot b (by simp), hdot c0 (by simp)]
    | a :: b :: c0 :: d :: rest =>
      have hlen : (d :: rest).length ≤ k := by
        simp only [List.length_cons] at hl ⊢; omega
      have hrec := ih (d :: rest) hlen (fun c hc => hdot c (by simp [List.mem_cons] at hc ⊢; tauto))
      simp only [group3, List.filter_cons]
      rw [if_pos (by simp [hdot a (by simp)]), if_pos (by simp [hdot b (by simp)]),
        if_pos (by simp [hdot c0 (by simp)]), if_neg (by simp), hrec]

theorem stripPair_cons_pair (u v : Char) (l : List Char) :
    stripPair u v (u :: v :: l) = stripPair u v l := by
  simp [stripPair]

theorem stripPair_of_not_mem (u v : Char) : ∀ (k : Nat) (l : List Char), l.length ≤ k →
    (∀ c ∈ l, c ≠ u) → stripPair u v l = l := by
  intro k
  induction k with
  | zero =>
    intro l hl _
    have : l = [] := List.length_eq_zero.mp (Nat.le_zero.mp hl)
    subst this; rfl
  | succ k ih =>
    intro l hl hu
    match l with
    | [] => rfl
    | [c] => rfl
    | a :: b :: rest =>
      have hlen : (b :: rest).length ≤ k := by
        simp only [List.length_cons] at hl ⊢; omega
      rw [stripPair, if_neg (fun hab => hu a (by simp) hab.1),
        ih (b :: rest) hlen (fun c hc => hu c (by simp [List.mem_cons] at hc ⊢; tauto))]

theorem dropWhile_eq_self_of_all {p : Char → Bool} :
    ∀ {l : List Char}, (∀ c ∈ l, p c = false) → l.dropWhile p = l := by
  intro l h
  cases l with
  | nil => rfl
  | cons c cs => rw [List.dropWhile_cons, h c (by simp)]; simp

theorem pyStrip_eq_self {l : List Char} (h : ∀ c ∈ l, isPySpace c = false) :
    pyStrip l = l := by
  rw [pyStrip, dropWhile_eq_self_of_all h,
    dropWhile_eq_self_of_all (fun c hc => h c (List.mem_reverse.mp hc)), List.reverse_reverse]

theorem pyLower_Rp_cons (l : List Char) :
    pyLower ('R' :: 'p' :: l) = 'r' :: 'p' :: pyLower l := by
  rw [pyLower, List.map_cons, List.map_cons,
    show pyLowerChar 'R' = 'r' from by decide, show pyLowerChar 'p' = 'p' from by decide]
  rfl

theorem clean_idr_format_idr (n : Nat) :
    clean_idr (.s (format_idr n)) = some (n : Int) := by
  have hmemrev : ∀ c ∈ (natRepr n).reverse, c ∈ decDigits :=
    fun c hc => mem_natRepr (List.mem_reverse.mp hc)
  have hgmem : ∀ c ∈ (group3 (natRepr n).reverse).reverse, c ∈ decDigits ∨ c = '.' := by
    intro c hc
    rw [List.mem_reverse] at hc
    rcases group3_mem ((natRepr n).reverse).length _ le_rfl c hc with h | h
    · exact Or.inl (hmemrev c h)
    · exact Or.inr h
  have hnospace :
      ∀ c ∈ ('R' :: 'p' :: (group3 (natRepr n).reverse).reverse), isPySpace c = false := by
    intro c hc
    rcases List.mem_cons.mp hc with rfl | hc
    · decide
    rcases List.mem_cons.mp hc with rfl | hc
    · decide
    rcases hgmem c hc with h | rfl
    · exact (decDigit_facts h).2.1
    · decide
  have hstrip : pyStrip (pdStr (PdVal.s (format_idr n))) =
      'R' :: 'p' :: (group3 (natRepr n).reverse).reverse := pyStrip_eq_self hnospace
  have hlower : pyLower ('R' :: 'p' :: (group3 (natRepr n).reverse).reverse) =
      'r' :: 'p' :: pyLower ((group3 (natRepr n).reverse).reverse) := pyLower_Rp_cons _
  have hcond1 : ¬ (('R' : Char) :: 'p' :: (group3 (natRepr n).reverse).reverse = [] ∨
      pyLower ('R' :: 'p' :: (group3 (natRepr n).reverse).reverse) = "nan".data ∨
      pyLower ('R' :: 'p' :: (group3 (natRepr n).reverse).reverse) = "none".data) := by
    rw [hlower]
    push_neg
    refine ⟨by simp, ?_, ?_⟩
    · rw [show ("nan".data) = ['n', 'a', 'n'] from rfl]
      intro h
      simp at h
    · rw [show ("none".data) = ['n', 'o', 'n', 'e'] from rfl]
      intro h
      simp at h
  have hres : idrResidue ('R' :: 'p' :: (group3 (natRepr n).reverse).reverse) = natRepr n := by
    rw [idrResidue, stripPair_cons_pair,
      stripPair_of_not_mem 'R' 'p' _ _ le_rfl (by
        intro c hc
        rcases hgmem c hc with h | rfl
        · exact (decDigit_facts h).2.2.2.2.2.2.1
        · decide),
      stripPair_of_not_mem 'r' 'p' _ _ le_rfl (by
        intro c hc
        rcases hgmem c hc with h | rfl
        · exact (decDigit_facts h).2.2.2.2.2.2.2
        · decide),
      List.filter_reverse,
      group3_filter_dot ((natRepr n).reverse).length _ le_rfl
        (fun c hc => (decDigit_facts (hmemrev c hc)).2.2.1),
      List.reverse_reverse,
      show (natRepr n).filter (fun c => c ≠ ' ') = natRepr n from
        List.filter_eq_self.mpr (fun c hc => by
          simp only [decide_eq_true_eq]
          exact (decDigit_facts (mem_natRepr hc)).2.2.2.2.1),
      show (natRepr n).filter (fun c => c ≠ ',') = natRepr n from
        List.filter_eq_self.mpr (fun c hc => by
          simp only [decide_eq_true_eq]
          exact (decDigit_facts (mem_natRepr hc)).2.2.2.1),
      show (natRepr n).filter (fun c => c.isDigit ∨ c = '-') = natRepr n from
        List.filter_eq_self.mpr (fun c hc => by
          simp only [decide_eq_true_eq]
          exact Or.inl (decDigit_facts (mem_natRepr hc)).1)]
  have hcond2 : ¬ (natRepr n = [] ∨ natRepr n = ['-']) := by
    push_neg
    refine ⟨natRepr_ne_nil n, ?_⟩
    intro h
    have : ('-' : Char) ∈ natRepr n := by rw [h]; simp
    have := decDigit_facts (mem_natRepr this)
    exact this.2.2.2.2.2.1 rfl
  have hparse : parsePyInt (natRepr n) = some ((n : Nat) : Int) := by
    obtain ⟨c, cs, hcons⟩ := List.exists_cons_of_ne_nil (natRepr_ne_nil n)
    have hcmem : c ∈ decDigits := mem_natRepr (by rw [hcons]; simp)
    rw [hcons, parsePyInt, if_neg (decDigit_facts hcmem).2.2.2.2.2.1,
      if_pos (List.all_eq_true.mpr (fun x hx => by
        have : x ∈ natRepr n := by rw [hcons]; exact hx
        exact (decDigit_facts (mem_natRepr this)).1)),
      ← hcons, digitsVal_natRepr]
  rw [clean_idr]
  simp only [pdIsna, Bool.false_eq_true, if_false, hstrip]
  rw [if_neg hcond1, hres, if_neg hcond2, hparse]


/-! ## Claim theorems -/

theorem runStatements_err_rolls_back :
    ∀ (l : List UpdatePayload) (st0 stc : CSStore) (e : DbErr),
      (runStatements st0 stc l).2 = some e → (runStatements st0 stc l).1 = st0 := by
  intro l
  induction l with
  | nil => intro st0 stc e h; simp [runStatements] at h
  | cons p rest ih =>
    intro st0 stc e h
    simp only [runStatements] at h ⊢
    cases hx : execUpdateSubmission stc p with
    | ok st' =>
      rw [hx] at h
      exact ih st0 st' e h
    | error e' => rfl

/-- Claim C1 counterexample: a batch whose first UPDATE succeeds and whose
second violates the status foreign key. The claim says the store is left
reflecting the already-committed first row and that the failure surfaces as
a wrapping ApplyError; in fact `bulk_update_content_submissions` (the
effective definition at db.py lines 284-310) runs the whole batch inside
one `with conn:` transaction, so the failure rolls everything back — the
final store equals the initial one even though the first statement alone
would have changed it — and the raw store error propagates unwrapped. -/
theorem apply_partial_failure_counterexample :
    bulk_update_content_submissions ⟨[⟨1, some 1, none⟩, ⟨2, some 1, none⟩], [1, 2, 3]⟩
        [⟨1, some 2, some "a"⟩, ⟨2, some 99, none⟩] =
      ⟨⟨[⟨1, some 1, none⟩, ⟨2, some 1, none⟩], [1, 2, 3]⟩, some .fkViolation, true⟩ ∧
    execUpdateSubmission ⟨[⟨1, some 1, none⟩, ⟨2, some 1, none⟩], [1, 2, 3]⟩
        ⟨1, some 2, some "a"⟩ =
      .ok ⟨[⟨1, some 2, some "a"⟩, ⟨2, some 1, none⟩], [1, 2, 3]⟩ :=
  ⟨by decide, rfl⟩

/-- Claim C1 (amended): when apply fails partway through a change batch,
the enclosing `with conn:` transaction rolls back every per-row statement
of the batch, leaving the store exactly as it was before apply, and the
underlying store error is re-raised unwrapped. -/
theorem apply_failure_rolls_back_whole_batch (st : CSStore)
    (updates : List UpdatePayload) (e : DbErr)
    (h : (bulk_update_content_submissions st updates).err = some e) :
    (bulk_update_content_submissions st updates).store = st := by
  by_cases he : updates = []
  · subst he
    simp [bulk_update_content_submissions] at h
  · simp only [bulk_update_content_submissions, if_neg he] at h ⊢
    exact runStatements_err_rolls_back updates st st e h

/-- Witness for the amended C1 theorem at a concrete store and batch. -/
theorem apply_failure_rolls_back_whole_batch_witness :
    (bulk_update_content_submissions ⟨[⟨1, some 1, none⟩], [1]⟩
        [⟨1, some 9, none⟩]).store = ⟨[⟨1, some 1, none⟩], [1]⟩ :=
  apply_failure_rolls_back_whole_batch _ _ .fkViolation (by decide)

/-- Claim C2: steps 3-5 of every ingestion load (ensure schema and table,
optional truncate, bulk insert) run inside one `with conn:` transaction:
a failing load leaves the store exactly as before — in particular a
replace-mode load never leaves the table truncated but unfilled — and a
successful replace-mode load leaves the destination table holding exactly
the normalized rows. -/
theorem ingestion_transaction_atomic (st : LBStore) (m : ModeKey) (t : RawTable)
    (clear : Bool) :
    ((runImport st m t clear).2 = .importFailed → (runImport st m t clear).1 = st) ∧
    (∀ rows, normalizeTable (modeSpec m) t = some rows →
      (runImport st m t true).2 = .imported rows.length →
      ((runImport st m t true).1).tables m = some rows) := by
  constructor
  · intro h
    by_cases hm : missingColumns (requiredCols m) t.cols ≠ []
    · have he : runImport st m t clear =
          (st, .rejected (missingColumns (requiredCols m) t.cols)) := by
        simp only [runImport]
        rw [if_pos hm]
      rw [he] at h
      exact absurd h (by simp)
    · cases hn : normalizeTable (modeSpec m) t with
      | none =>
        have he : runImport st m t clear = (st, .normFailed) := by
          simp only [runImport, hn]
          rw [if_neg hm]
        rw [he] at h
        exact absurd h (by simp)
      | some rows =>
        cases hb : importBody st m clear rows with
        | none =>
          have he : runImport st m t clear = (st, .importFailed) := by
            simp only [runImport, hn, hb]
            rw [if_neg hm]
          rw [he]
        | some st' =>
          have he : runImport st m t clear = (st', .imported rows.length) := by
            simp only [runImport, hn, hb]
            rw [if_neg hm]
          rw [he] at h
          exact absurd h (by simp)
  · intro rows hrows h
    by_cases hm : missingColumns (requiredCols m) t.cols ≠ []
    · have he : runImport st m t true =
          (st, .rejected (missingColumns (requiredCols m) t.cols)) := by
        simp only [runImport]
        rw [if_pos hm]
      rw [he] at h
      exact absurd h (by simp)
    · cases hb : importBody st m true rows with
      | none =>
        have he : runImport st m t true = (st, .importFailed) := by
          simp only [runImport, hrows, hb]
          rw [if_neg hm]
        rw [he] at h
        exact absurd h (by simp)
      | some st' =>
        have he : runImport st m t true = (st', .imported rows.length) := by
          simp only [runImport, hrows, hb]
          rw [if_neg hm]
        rw [he]
        simp only [importBody] at hb
        by_cases hrej : st.rejects rows = true
        · rw [if_pos hrej] at hb
          exact absurd hb (by simp)
        · rw [if_neg hrej] at hb
          injection hb with hst'
          rw [← hst']
          simp [setTable]

/-- Witness for the C2 theorem: a store whose driver rejects the insert;
the failing replace-mode load leaves the store untouched. -/
theorem ingestion_transaction_atomic_witness :
    (runImport ⟨false, fun _ => some [[DbVal.int 7]], fun _ => true⟩ .dining
        ⟨["Creator Name", "Penjualan Dining", "Syarat penjualan", "Kurang penjualan",
            "Status", "Bonus"],
          [[.i 1, .i 2, .i 3, .i 4, .s "ok", .i 5]]⟩ true).1 =
      ⟨false, fun _ => some [[DbVal.int 7]], fun _ => true⟩ :=
  (ingestion_transaction_atomic _ _ _ _).1 rfl

theorem requiredCols_strip_fixed (m : ModeKey) : ∀ c ∈ requiredCols m, pyStripS c = c := by
  cases m <;> decide

/-- Claim C4: an upload missing a required column (matched
case-insensitively, with the uploaded names trimmed — equivalent to
trimming both sides, since every required name is trim-invariant) is
rejected before any normalization or store work: the store is untouched and
the reported missing list names exactly the required columns with no
case-insensitive trimmed match. -/
theorem required_column_rejection (st : LBStore) (m : ModeKey) (t : RawTable)
    (clear : Bool) (h : missingColumns (requiredCols m) t.cols ≠ []) :
    runImport st m t clear = (st, .rejected (missingColumns (requiredCols m) t.cols)) ∧
    ∀ c ∈ requiredCols m,
      (c ∈ missingColumns (requiredCols m) t.cols ↔
        ∀ x ∈ t.cols, pyLowerS (pyStripS x) ≠ pyLowerS (pyStripS c)) := by
  constructor
  · simp only [runImport]
    rw [if_pos h]
  · intro c hc
    have hfix := requiredCols_strip_fixed m c hc
    rw [missingColumns, List.mem_filter]
    simp only [decide_eq_true_eq, List.any_eq_true, not_exists]
    constructor
    · rintro ⟨-, hp⟩ x hx heq
      rw [hfix] at heq
      exact hp x ⟨hx, by simp [heq]⟩
    · intro hall
      refine ⟨hc, fun x hx => ?_⟩
      rcases hx with ⟨hmem, hd⟩
      exact hall x hmem (by rw [hfix]; exact hd)

/-- Witness for the C4 theorem at a concrete dining-mode upload missing
three required columns. -/
theorem required_column_rejection_witness :
    runImport ⟨false, fun _ => none, fun _ => false⟩ .dining
        ⟨["creator name", " STATUS ", "Bonus"], []⟩ true =
      (⟨false, fun _ => none, fun _ => false⟩,
        .rejected (missingColumns (requiredCols .dining)
          ["creator name", " STATUS ", "Bonus"])) :=
  (required_column_rejection _ _ _ _ (by decide)).1

/-- Claim C3 counterexample: an agency-name label absent from the agency
lookup. The claim says every row whose change-set holds an unmapped
categorical label (status name, agency name) is skipped; in fact
`update_creator_registry_row` applies the update anyway, writing a NULL
`agency_id` into the row — the store changes and the row counts as
updated. -/
theorem lookup_miss_skip_counterexample :
    update_creator_registry_row
        ⟨[⟨5, [("agency_id", .int 1), ("notes", .str "x")]⟩], [("Alpha", 1)]⟩ 5
        [("agency_name", .str "Beta")] =
      (⟨[⟨5, [("agency_id", .null), ("notes", .str "x")]⟩], [("Alpha", 1)]⟩, true) ∧
    [CRRow.mk 5 [("agency_id", .null), ("notes", .str "x")]] ≠
      [CRRow.mk 5 [("agency_id", .int 1), ("notes", .str "x")]] := by
  exact ⟨by decide, by decide⟩

/-- Claim C3 (amended): in the QC apply path a row whose changed status
name has no id in the status lookup is silently skipped — excluded from the
change batch and hence from the success count — while in the submissions
editor the same miss raises a hard failure for the whole batch, and an
agency-name miss in the creator-registry update is applied with a NULL
agency id rather than skipped. -/
theorem lookup_miss_qc_skip :
    (∀ (lookup : List (String × Int)) (r : QcRow),
      pdNe r.baseStatus r.curStatus = true →
      lookupStatusDict lookup r.curStatus = none →
      processQcRow lookup r = none) ∧
    (∀ (lookup : List (String × Int)) (r : QcRow) (rows : List QcRow),
      processQcRow lookup r = none →
      qcChanges lookup (r :: rows) = qcChanges lookup rows) ∧
    (∀ (lookup : List (String × Int)) (r : SubRow),
      (subStatusChanged r = true ∨ r.origReason ≠ r.editReason) →
      lookupStatusFirst lookup r.editStatus = none →
      processSubRow lookup r = .error ()) := by
  refine ⟨?_, ?_, ?_⟩
  · intro lookup r hchg hmiss
    simp [processQcRow, hchg, hmiss]
  · intro lookup r rows hnone
    simp [qcChanges, List.filterMap_cons, hnone]
  · intro lookup r hchg hmiss
    rcases hchg with hchg | hchg
    · simp [processSubRow, hchg, hmiss]
    · simp [processSubRow, hchg, hmiss]

/-- Witness for the amended C3 theorem: a changed status missing from an
empty status lookup is skipped by the QC loop. -/
theorem lookup_miss_qc_skip_witness :
    processQcRow [] ⟨7, some "Pending", none, some "Approved", none⟩ = none :=
  lookup_miss_qc_skip.1 [] ⟨7, some "Pending", none, some "Approved", none⟩
    (by decide) (by decide)

/-- Claim C5 counterexample: a baseline reason `"ok"` and a working reason
`"ok "` differ only in trailing whitespace, yet the submissions editor
emits a change payload for the row — its comparison is exact string
equality, not trimmed equality. -/
theorem diff_trim_counterexample :
    processSubRow [("Approved", 2)] ⟨1, some "Approved", "ok", "Approved", "ok "⟩ =
      .ok (some ⟨1, some 2, some "ok "⟩) := rfl

/-- Claim C5 (amended): the QC diff compares reasons under the normalized
rule (both sides trimmed, NULL equal to the empty string), emitting nothing
for a row whose status is unedited and whose reasons are
normalized-equal; the submissions editor gets the NULL-versus-blank
equivalence from its baseline `fillna("")` but otherwise compares raw,
untrimmed strings. -/
theorem diff_normalized_equality_amended :
    (∀ (lookup : List (String × Int)) (i : Int) (s : String) (br cr : Option String),
      cleanReason br = cleanReason cr →
      processQcRow lookup ⟨i, some s, br, some s, cr⟩ = none) ∧
    (∀ (lookup : List (String × Int)) (i : Int) (s : String),
      processSubRow lookup ⟨i, some s, "", s, ""⟩ = .ok none) := by
  constructor
  · intro lookup i s br cr hr
    simp [processQcRow, pdNe, hr]
  · intro lookup i s
    simp [processSubRow, subStatusChanged]

/-- Witness for the amended C5 theorem: a NULL baseline reason against a
whitespace-only working reason emits no change in the QC diff. -/
theorem diff_normalized_equality_amended_witness :
    processQcRow [] ⟨10, some "Pending", none, some "Pending", some " "⟩ = none :=
  diff_normalized_equality_amended.1 [] 10 "Pending" none (some " ") (by decide)

/-- Claim C6 counterexample: a row where only the status changed; the
emitted payload still carries the unchanged reason value `"same"` (and the
submissions editor always carries both `status_id` and `reason`), so a
payload does not contain only the changed fields plus the row identity. -/
theorem change_minimality_counterexample :
    processSubRow [("Approved", 2)] ⟨1, some "Pending", "same", "Approved", "same"⟩ =
      .ok (some ⟨1, some 2, some "same"⟩) := rfl

/-- Claim C6 (amended): a row with zero net field changes is absent from
every change batch (submissions editor, QC loop, and the creator form,
whose `check_change` payloads moreover really do contain only the fields
whose new value differs), but the submissions and QC payloads are not
minimal — they always carry the reason field. -/
theorem change_batch_payloads_amended :
    (∀ (row : List (String × DbVal)) (cands : List (String × DbVal)),
      (buildUpdatedFields row cands).all
        (fun (kv : String × DbVal) => rowGet row kv.1 ≠ kv.2) = true) ∧
    (∀ (lookup : List (String × Int)) (i : Int) (s r : String),
      processSubRow lookup ⟨i, some s, r, s, r⟩ = .ok none) ∧
    (∀ (lookup : List (String × Int)) (i : Int) (s br : Option String),
      processQcRow lookup ⟨i, s, br, s, br⟩ = none) := by
  refine ⟨?_, ?_, ?_⟩
  · intro row cands
    exact List.all_eq_true.mpr fun kv hkv => (List.mem_filter.mp hkv).2
  · intro lookup i s r
    simp [processSubRow, subStatusChanged]
  · intro lookup i s br
    cases s with
    | none => simp [processQcRow, pdNe, lookupStatusDict]
    | some sv => simp [processQcRow, pdNe]

/-- Claim C7: formatting a whole-number minor-unit amount as a grouped
Rupiah string and normalizing it back is the identity, and in particular
`334022643` formats to `"Rp334.022.643"` and normalizes back. -/
theorem currency_roundtrip :
    (∀ n : Nat, clean_idr (.s (format_idr n)) = some (n : Int)) ∧
    format_idr 334022643 = "Rp334.022.643" ∧
    clean_idr (.s "Rp334.022.643") = some 334022643 :=
  ⟨clean_idr_format_idr, by decide, by decide⟩

/-- Claim C8 counterexample: the text placeholders `"nan"` and `"none"` are
not normalized to NULL — they survive as literal text in the normalized
row — and a status cell keeps even the empty string as text. -/
theorem text_placeholder_counterexample :
    cellName (.s "nan") = .str "nan" ∧ cellName (.s "none") = .str "none" ∧
    cellStatus (.s "") = .str "" := by decide

/-- Claim C8 (amended): text normalization stringifies and trims every
cell; on the name/username columns exactly the empty string and `"."`
become NULL, every other value (including the literal `"nan"` that a
missing cell stringifies to) stays text, and status columns are only
trimmed, never nulled. -/
theorem text_normalization_amended :
    (∀ s : String, pyStripS s = "" ∨ pyStripS s = "." → cellName (.s s) = .null) ∧
    (∀ s : String, pyStripS s ≠ "" → pyStripS s ≠ "." →
      cellName (.s s) = .str (pyStripS s)) ∧
    (∀ s : String, cellStatus (.s s) = .str (pyStripS s)) ∧
    cellName .na = .str "nan" := by
  have hname : ∀ s : String, cellName (.s s) =
      if pyStripS s = "." ∨ pyStripS s = "" then .null else .str (pyStripS s) :=
    fun s => rfl
  refine ⟨?_, ?_, fun s => rfl, by decide⟩
  · intro s hs
    rw [hname]
    rcases hs with hs | hs
    · rw [if_pos (Or.inr hs)]
    · rw [if_pos (Or.inl hs)]
  · intro s h1 h2
    rw [hname, if_neg (by push_neg; exact ⟨h2, h1⟩)]

/-- Witness for the amended C8 theorem: a dot padded with blanks is
normalized to NULL on a name column, while a padded word is only trimmed. -/
theorem text_normalization_amended_witness :
    cellName (.s " . ") = .null ∧ cellName (.s "  adtree  ") = .str "adtree" :=
  ⟨text_normalization_amended.1 " . " (Or.inr (by decide)),
    text_normalization_amended.2.1 "  adtree  " (by decide) (by decide)⟩

/-- Claim C9: the integer and currency normalizers are total functions into
integer-or-null — they never raise — and yield null on missing input, on
blank input, on the `"nan"`/`"none"` placeholders, and on any input whose
filtered residue is empty, a bare minus, or unparseable. -/
theorem cleaners_total_never_raise :
    (clean_int .na = none ∧ clean_idr .na = none) ∧
    (∀ v : PdVal, clean_int v = none ∨ ∃ n : Int, clean_int v = some n) ∧
    (∀ v : PdVal, clean_idr v = none ∨ ∃ n : Int, clean_idr v = some n) ∧
    (∀ s : String, pyStrip s.data = [] →
      clean_int (.s s) = none ∧ clean_idr (.s s) = none) ∧
    (∀ s : String,
      pyLower (pyStrip s.data) = "nan".data ∨ pyLower (pyStrip s.data) = "none".data →
      clean_int (.s s) = none ∧ clean_idr (.s s) = none) ∧
    (∀ s : String,
      intResidue (pyStrip s.data) = [] ∨ intResidue (pyStrip s.data) = ['-'] ∨
        parsePyInt (intResidue (pyStrip s.data)) = none →
      clean_int (.s s) = none) ∧
    (∀ s : String,
      idrResidue (pyStrip s.data) = [] ∨ idrResidue (pyStrip s.data) = ['-'] ∨
        parsePyInt (idrResidue (pyStrip s.data)) = none →
      clean_idr (.s s) = none) := by
  have hint : ∀ s : String, clean_int (.s s) =
      if pyStrip s.data = [] ∨ pyLower (pyStrip s.data) = "nan".data ∨
          pyLower (pyStrip s.data) = "none".data then none
      else if intResidue (pyStrip s.data) = [] ∨ intResidue (pyStrip s.data) = ['-'] then
        none
      else parsePyInt (intResidue (pyStrip s.data)) :=
    fun s => rfl
  have hidr : ∀ s : String, clean_idr (.s s) =
      if pyStrip s.data = [] ∨ pyLower (pyStrip s.data) = "nan".data ∨
          pyLower (pyStrip s.data) = "none".data then none
      else if idrResidue (pyStrip s.data) = [] ∨ idrResidue (pyStrip s.data) = ['-'] then
        none
      else parsePyInt (idrResidue (pyStrip s.data)) :=
    fun s => rfl
  refine ⟨by decide, ?_, ?_, ?_, ?_, ?_, ?_⟩
  · intro v
    rcases h : clean_int v with - | n
    · exact Or.inl rfl
    · exact Or.inr ⟨n, rfl⟩
  · intro v
    rcases h : clean_idr v with - | n
    · exact Or.inl rfl
    · exact Or.inr ⟨n, rfl⟩
  · intro s h
    rw [hint, hidr, if_pos (Or.inl h), if_pos (Or.inl h)]
    exact ⟨rfl, rfl⟩
  · intro s h
    have h' : pyStrip s.data = [] ∨ pyLower (pyStrip s.data) = "nan".data ∨
        pyLower (pyStrip s.data) = "none".data := by
      rcases h with h | h
      · exact Or.inr (Or.inl h)
      · exact Or.inr (Or.inr h)
    rw [hint, hidr, if_pos h', if_pos h']
    exact ⟨rfl, rfl⟩
  · intro s h
    rw [hint]
    by_cases h1 : pyStrip s.data = [] ∨ pyLower (pyStrip s.data) = "nan".data ∨
        pyLower (pyStrip s.data) = "none".data
    · rw [if_pos h1]
    · rw [if_neg h1]
      by_cases h2 : intResidue (pyStrip s.data) = [] ∨ intResidue (pyStrip s.data) = ['-']
      · rw [if_pos h2]
      · rw [if_neg h2]
        rcases h with h | h | h
        · exact absurd (Or.inl h) h2
        · exact absurd (Or.inr h) h2
        · exact h
  · intro s h
    rw [hidr]
    by_cases h1 : pyStrip s.data = [] ∨ pyLower (pyStrip s.data) = "nan".data ∨
        pyLower (pyStrip s.data) = "none".data
    · rw [if_pos h1]
    · rw [if_neg h1]
      by_cases h2 : idrResidue (pyStrip s.data) = [] ∨ idrResidue (pyStrip s.data) = ['-']
      · rw [if_pos h2]
      · rw [if_neg h2]
        rcases h with h | h | h
        · exact absurd (Or.inl h) h2
        · exact absurd (Or.inr h) h2
        · exact h

/-- Witness for the C9 theorem across its null-yielding cases: blanks, a
placeholder, a digitless string, and a string whose residue fails to
parse. -/
theorem cleaners_total_never_raise_witness :
    (clean_int (.s "   ") = none ∧ clean_idr (.s "   ") = none) ∧
    (clean_int (.s " NaN") = none ∧ clean_idr (.s " NaN") = none) ∧
    clean_int (.s "abc") = none ∧ clean_idr (.s "1-2") = none :=
  ⟨cleaners_total_never_raise.2.2.2.1 "   " (by decide),
    cleaners_total_never_raise.2.2.2.2.1 " NaN" (Or.inl (by decide)),
    cleaners_total_never_raise.2.2.2.2.2.1 "abc" (Or.inl (by decide)),
    cleaners_total_never_raise.2.2.2.2.2.2 "1-2" (Or.inr (Or.inr (by decide)))⟩

/-- Claim C10: applying an empty change batch, or an empty per-row field
set, is a complete no-op — no store connection is opened, no statement
runs, and the store is returned unchanged. -/
theorem empty_batch_noop (st : CSStore) (st2 : CRStore) (rowId : Int) :
    bulk_update_content_submissions st [] = ⟨st, none, false⟩ ∧
    update_creator_registry_row st2 rowId [] = (st2, false) :=
  ⟨rfl, rfl⟩

end Adtree
